import Mathlib

/-!
Verification of the `grade` benchmark-ingestion core (`src/grade.go`).

The embedding translates `grade.go` directly:
* `Config`, `Config.validate`, `Run`, `makeFields` come from `src/grade.go`.
* The repository's `internal/parse` package is not under `src/`; its record
  type and presence-mask constants are modelled from the spec (§3, §4.2).
* Go's `time.Time` is modelled by the pair returned by its Unix-epoch
  decomposition (`Unix()` seconds, floored, plus a nanosecond remainder in
  `[0, 10^9)`), because `grade.go` only inspects `Timestamp.Unix()` and
  otherwise passes the timestamp through unchanged.
* Go's `map[string]T` literals with distinct, statically known keys are
  modelled as association lists in insertion order; the `for ... range`
  iteration over the parser's `map[string][]*parse.Benchmark`, whose order
  Go leaves unspecified, is modelled by an explicit reordering function
  `mapIter` constrained (in the theorems) to produce a permutation of the
  parser's entries.
* The benchmark report reader and the InfluxDB client are modelled by the
  parse outcome of the reader's contents (`Except String Benchset`) and by
  the write sink function, together with a trace recording whether the
  parser consumed the reader and which batches were written.
-/

namespace parse

/-- Modelled from the spec: the `internal/parse` package (not under `src/`)
defines a presence bitset over the four optional metrics (§3 `measuredMask`,
§4.2 "fixed small vocabulary"); this is the bit for the time-per-op metric. -/
def NsPerOp : Nat := 1

/-- Modelled from the spec: presence bit for the throughput (MB/s) metric. -/
def MBPerS : Nat := 2

/-- Modelled from the spec: presence bit for the bytes-allocated-per-op metric. -/
def AllocedBytesPerOp : Nat := 4

/-- Modelled from the spec: presence bit for the allocations-per-op metric. -/
def AllocsPerOp : Nat := 8

/-- Modelled from the spec: one parsed benchmark result of the repository's
`internal/parse` package (§3 BenchmarkRecord): name, CPU count, iteration
count (Go `int`), two floating-point metrics, two unsigned 64-bit allocation
metrics (represented as `Nat`, with the `< 2^64` range carried as a
hypothesis where it matters), and the presence mask. -/
structure Benchmark where
  Name : String
  NumCPU : Int
  N : Int
  NsPerOp : Float
  MBPerS : Float
  AllocedBytesPerOp : Nat
  AllocsPerOp : Nat
  Measured : Nat

end parse

namespace grade

/-- Go `time.Time`, modelled by its Unix-epoch decomposition: `unixSec` is
what `Unix()` returns (floor of the elapsed seconds, so negative before the
epoch), `nsec` the nanosecond remainder, `0 ≤ nsec < 10^9`. -/
structure GoTime where
  unixSec : Int
  nsec : Nat
  nsec_lt : nsec < 1000000000
  deriving DecidableEq

/-- A Go time.Time strictly after the Unix epoch (Go `t.After(time.Unix(0, 0))`):
the represented instant `unixSec + nsec·10⁻⁹` is positive. -/
def GoTime.afterEpoch (t : GoTime) : Prop :=
  0 < t.unixSec ∨ (t.unixSec = 0 ∧ 0 < t.nsec)

instance (t : GoTime) : Decidable t.afterEpoch := by
  unfold GoTime.afterEpoch; infer_instance

/-- Structure Config from `src/grade.go`. -/
structure Config where
  Database : String
  GoVersion : String
  Timestamp : GoTime
  Revision : String
  HardwareID : String

/-- The message list of `Config.validate` from `src/grade.go`, split out so the collected message
list is addressable: the successive conditional appends to `msg`. -/
def Config.validateMsgs (cfg : Config) : List String :=
  (if cfg.Database = "" then ["Database cannot be empty"] else []) ++
  (if cfg.GoVersion = "" then ["Go version cannot be empty"] else []) ++
  (if cfg.Timestamp.unixSec ≤ 0 then ["Timestamp must be greater than zero"] else []) ++
  (if cfg.Revision = "" then ["Revision cannot be empty"] else []) ++
  (if cfg.HardwareID = "" then ["Hardware ID cannot be empty"] else [])

/-- Function `Config.validate` from `src/grade.go`: `some e` models returning the
error `errors.New(strings.Join(msg, "\n"))`, `none` models `nil`. -/
def Config.validate (cfg : Config) : Option String :=
  let msg := cfg.validateMsgs
  if 0 < msg.length then some (String.intercalate "\n" msg) else none

/-- Go's conversion `int64(u)` of an (already reduced, `u < 2^64`) unsigned
64-bit value: reinterpret the bit pattern in two's complement. -/
def int64ofUInt64 (v : Nat) : Int :=
  if v % 2 ^ 64 < 2 ^ 63 then ((v % 2 ^ 64 : Nat) : Int)
  else ((v % 2 ^ 64 : Nat) : Int) - 2 ^ 64

/-- The dynamic types stored into the `map[string]interface{}` of
`makeFields`: `string`, `int`, `float64` and `int64`. -/
inductive FieldValue where
  | str (s : String)
  | int (n : Int)
  | float (x : Float)
  | i64 (n : Int)

/-- Function `makeFields` from `src/grade.go`. The Go map receives distinct keys in
program order; it is modelled as the association list in insertion order. -/
def makeFields (b : parse.Benchmark) (revision : String) :
    List (String × FieldValue) :=
  [("revision", FieldValue.str revision), ("n", FieldValue.int b.N)] ++
  (if b.Measured &&& parse.NsPerOp ≠ 0 then
    [("ns_per_op", FieldValue.float b.NsPerOp)] else []) ++
  (if b.Measured &&& parse.MBPerS ≠ 0 then
    [("mb_per_s", FieldValue.float b.MBPerS)] else []) ++
  (if b.Measured &&& parse.AllocedBytesPerOp ≠ 0 then
    [("alloced_bytes_per_op", FieldValue.i64 (int64ofUInt64 b.AllocedBytesPerOp))] else []) ++
  (if b.Measured &&& parse.AllocsPerOp ≠ 0 then
    [("allocs_per_op", FieldValue.i64 (int64ofUInt64 b.AllocsPerOp))] else [])

/-- The client Point record as `Run` constructs it: measurement, tags, fields. -/
structure Point where
  Measurement : String
  Tags : List (String × String)
  Fields : List (String × FieldValue)

/-- The client BatchPoints record as `Run` constructs it. -/
structure BatchPoints where
  Database : String
  Tags : List (String × String)
  Time : GoTime
  Precision : String
  Points : List Point

/-- The parser's output `map[string][]*parse.Benchmark`, as the association
list of (package, records) entries; per the spec (§4.2) the parser yields the
packages and, within each package, the records in source-text order. -/
def Benchset := List (String × List parse.Benchmark)

/-- The point `Run` builds for one benchmark of one package (loop body of
the `range benchset` loop in `src/grade.go`). -/
def pointOf (cfg : Config) (pkg : String) (b : parse.Benchmark) : Point :=
  { Measurement := "benchmarks"
    Tags := [("pkg", pkg), ("ncpu", toString b.NumCPU), ("name", b.Name)]
    Fields := makeFields b cfg.Revision }

/-- The batch `Run` builds: the `client.BatchPoints` literal plus the nested
append loop, run over the entries in the order `iter` in which Go's map
`range` yields them. -/
def buildBatch (cfg : Config) (iter : List (String × List parse.Benchmark)) :
    BatchPoints :=
  { Database := cfg.Database
    Tags := [("goversion", cfg.GoVersion), ("hwid", cfg.HardwareID)]
    Time := cfg.Timestamp
    Precision := "s"
    Points := iter.flatMap (fun pb => pb.2.map (pointOf cfg pb.1)) }

/-- Observable outcome of one `Run` call: whether the parser consumed the
reader, the batches submitted to the client, and the returned error. -/
structure RunTrace where
  parseCalled : Bool
  writes : List BatchPoints
  result : Option String

/-- Function `Run` from `src/grade.go`. Here `parseResult` is what
`parse.ParseMultipleBenchmarks(r)` returns for the reader's contents;
`mapIter` is the order in which Go's `range` enumerates the map's entries
(constrained to a permutation in the theorems); `write` is the client's
`Write`, returning `some e` for an error and `none` for success. -/
def Run (parseResult : Except String (List (String × List parse.Benchmark)))
    (write : BatchPoints → Option String) (cfg : Config)
    (mapIter : List (String × List parse.Benchmark) →
      List (String × List parse.Benchmark)) : RunTrace :=
  match cfg.validate with
  | some err => { parseCalled := false, writes := [], result := some err }
  | none =>
    match parseResult with
    | Except.error err => { parseCalled := true, writes := [], result := some err }
    | Except.ok benchset =>
      let bp := buildBatch cfg (mapIter benchset)
      { parseCalled := true, writes := [bp], result := write bp }


/-- Sample timestamp: 100 seconds after the Unix epoch. -/
def ts100 : GoTime := ⟨100, 0, by norm_num⟩

/-- Sample timestamp: one nanosecond after the Unix epoch (strictly after the
epoch, yet its Unix() value is 0). -/
def epochPlus1ns : GoTime := ⟨0, 1, by norm_num⟩

/-- Sample configuration with all five fields valid. -/
def cfgOK : Config := ⟨"db", "go1.22", ts100, "abc123", "hw1"⟩

/-- Sample configuration whose only invalid field is the database name. -/
def cfgDbEmpty : Config := ⟨"", "go1.22", ts100, "abc123", "hw1"⟩

/-- Sample configuration that is valid except that its timestamp lies strictly
between the epoch and one second after it. -/
def cfgSubSecond : Config := ⟨"db", "go1.22", epochPlus1ns, "abc123", "hw1"⟩

/-- The five validation messages in the fixed order the code checks them. -/
def allMsgs : List String :=
  ["Database cannot be empty", "Go version cannot be empty",
   "Timestamp must be greater than zero", "Revision cannot be empty",
   "Hardware ID cannot be empty"]

/-- Sample benchmark with no optional metric measured. -/
def bMask0 : parse.Benchmark := ⟨"BenchmarkNone", 1, 50, 0, 0, 0, 0, 0⟩

/-- Sample benchmark with all four optional metrics measured. -/
def bMask15 : parse.Benchmark := ⟨"BenchmarkAll", 8, 200, 1.5, 2.5, 32, 2, 15⟩

/-- Sample benchmark whose allocation counters exercise the unsigned-to-signed
conversion: bytes-per-op at 2^63 (wraps), allocs-per-op small (does not). -/
def bAlloc : parse.Benchmark :=
  ⟨"BenchmarkBig", 1, 10, 0, 0, 2 ^ 63, 3, 12⟩

/-- Sample benchmark for package "a". -/
def bA : parse.Benchmark := ⟨"X", 4, 100, 0, 0, 0, 0, 0⟩

/-- Sample benchmark for package "b". -/
def bB : parse.Benchmark := ⟨"Y", 4, 100, 0, 0, 0, 0, 0⟩

/-- Sample parser output: two packages, one benchmark each, source order. -/
def bsSrc : List (String × List parse.Benchmark) := [("a", [bA]), ("b", [bB])]

/-- The same two map entries enumerated in the opposite order (a permutation
Go's map range is free to produce). -/
def bsRev : List (String × List parse.Benchmark) := [("b", [bB]), ("a", [bA])]

theorem validateMsgs_sublist (cfg : Config) : cfg.validateMsgs.Sublist allMsgs := by
  unfold Config.validateMsgs allMsgs
  split_ifs <;> decide

theorem mem_validateMsgs (cfg : Config) :
    (("Database cannot be empty" ∈ cfg.validateMsgs) ↔ cfg.Database = "") ∧
    (("Go version cannot be empty" ∈ cfg.validateMsgs) ↔ cfg.GoVersion = "") ∧
    (("Timestamp must be greater than zero" ∈ cfg.validateMsgs) ↔
      cfg.Timestamp.unixSec ≤ 0) ∧
    (("Revision cannot be empty" ∈ cfg.validateMsgs) ↔ cfg.Revision = "") ∧
    (("Hardware ID cannot be empty" ∈ cfg.validateMsgs) ↔ cfg.HardwareID = "") := by
  unfold Config.validateMsgs
  split_ifs <;> simp_all

theorem validateMsgs_length (cfg : Config) :
    cfg.validateMsgs.length =
      (if cfg.Database = "" then 1 else 0) + (if cfg.GoVersion = "" then 1 else 0) +
      (if cfg.Timestamp.unixSec ≤ 0 then 1 else 0) +
      (if cfg.Revision = "" then 1 else 0) + (if cfg.HardwareID = "" then 1 else 0) := by
  unfold Config.validateMsgs
  split_ifs <;> simp_all

theorem validateMsgs_eq_nil (cfg : Config) :
    cfg.validateMsgs = [] ↔
      (cfg.Database ≠ "" ∧ cfg.GoVersion ≠ "" ∧ 0 < cfg.Timestamp.unixSec ∧
       cfg.Revision ≠ "" ∧ cfg.HardwareID ≠ "") := by
  unfold Config.validateMsgs
  split_ifs <;> simp_all

theorem validate_eq (cfg : Config) :
    cfg.validate = if cfg.validateMsgs = [] then none
      else some (String.intercalate "\n" cfg.validateMsgs) := by
  unfold Config.validate
  rcases h : cfg.validateMsgs with _ | ⟨a, l⟩ <;> simp [h]

/-- C2: the validator succeeds exactly when all five fields pass their checks;
otherwise it returns one aggregated error joining the message of every violated
field with newlines (never only the first violation), the messages forming a
subsequence of the fixed check order database, Go version, timestamp, revision,
hardware id, one message per violated field; a Config whose only invalid field
is the database yields exactly the one violation naming it, and likewise for
each of the other four fields. -/
theorem validate_spec (cfg : Config) :
    (cfg.validate = none ↔
      (cfg.Database ≠ "" ∧ cfg.GoVersion ≠ "" ∧ 0 < cfg.Timestamp.unixSec ∧
       cfg.Revision ≠ "" ∧ cfg.HardwareID ≠ "")) ∧
    (∀ e, cfg.validate = some e →
      e = String.intercalate "\n" cfg.validateMsgs ∧ cfg.validateMsgs ≠ []) ∧
    cfg.validateMsgs.Sublist allMsgs ∧
    (("Database cannot be empty" ∈ cfg.validateMsgs) ↔ cfg.Database = "") ∧
    (("Go version cannot be empty" ∈ cfg.validateMsgs) ↔ cfg.GoVersion = "") ∧
    (("Timestamp must be greater than zero" ∈ cfg.validateMsgs) ↔
      cfg.Timestamp.unixSec ≤ 0) ∧
    (("Revision cannot be empty" ∈ cfg.validateMsgs) ↔ cfg.Revision = "") ∧
    (("Hardware ID cannot be empty" ∈ cfg.validateMsgs) ↔ cfg.HardwareID = "") ∧
    (cfg.validateMsgs.length =
      (if cfg.Database = "" then 1 else 0) + (if cfg.GoVersion = "" then 1 else 0) +
      (if cfg.Timestamp.unixSec ≤ 0 then 1 else 0) +
      (if cfg.Revision = "" then 1 else 0) + (if cfg.HardwareID = "" then 1 else 0)) ∧
    ((cfg.Database = "" ∧ cfg.GoVersion ≠ "" ∧ 0 < cfg.Timestamp.unixSec ∧
      cfg.Revision ≠ "" ∧ cfg.HardwareID ≠ "") →
      cfg.validate = some "Database cannot be empty") ∧
    ((cfg.Database ≠ "" ∧ cfg.GoVersion = "" ∧ 0 < cfg.Timestamp.unixSec ∧
      cfg.Revision ≠ "" ∧ cfg.HardwareID ≠ "") →
      cfg.validate = some "Go version cannot be empty") ∧
    ((cfg.Database ≠ "" ∧ cfg.GoVersion ≠ "" ∧ cfg.Timestamp.unixSec ≤ 0 ∧
      cfg.Revision ≠ "" ∧ cfg.HardwareID ≠ "") →
      cfg.validate = some "Timestamp must be greater than zero") ∧
    ((cfg.Database ≠ "" ∧ cfg.GoVersion ≠ "" ∧ 0 < cfg.Timestamp.unixSec ∧
      cfg.Revision = "" ∧ cfg.HardwareID ≠ "") →
      cfg.validate = some "Revision cannot be empty") ∧
    ((cfg.Database ≠ "" ∧ cfg.GoVersion ≠ "" ∧ 0 < cfg.Timestamp.unixSec ∧
      cfg.Revision ≠ "" ∧ cfg.HardwareID = "") →
      cfg.validate = some "Hardware ID cannot be empty") := by
  have hnil := validateMsgs_eq_nil cfg
  have hmem := mem_validateMsgs cfg
  have hval := validate_eq cfg
  refine ⟨?_, ?_, validateMsgs_sublist cfg, hmem.1, hmem.2.1, hmem.2.2.1,
    hmem.2.2.2.1, hmem.2.2.2.2, validateMsgs_length cfg, ?_, ?_, ?_, ?_, ?_⟩
  · rw [hval]
    rcases Decidable.em (cfg.validateMsgs = []) with h | h
    · simp only [h, if_pos]
      simpa using hnil.mp h
    · rw [if_neg h]
      simp only [reduceCtorEq, false_iff]
      exact fun hp => h (hnil.mpr hp)
  · intro e he
    rw [hval] at he
    rcases Decidable.em (cfg.validateMsgs = []) with h | h
    · rw [if_pos h] at he; cases he
    · rw [if_neg h] at he
      exact ⟨(Option.some_injective _ he.symm), h⟩
  · intro h
    have hm : cfg.validateMsgs = ["Database cannot be empty"] := by
      unfold Config.validateMsgs
      simp [h.1, h.2.1, h.2.2.2.1, h.2.2.2.2, Int.not_le.mpr h.2.2.1]
    rw [hval, hm]; rfl
  · intro h
    have hm : cfg.validateMsgs = ["Go version cannot be empty"] := by
      unfold Config.validateMsgs
      simp [h.1, h.2.1, h.2.2.2.1, h.2.2.2.2, Int.not_le.mpr h.2.2.1]
    rw [hval, hm]; rfl
  · intro h
    have hm : cfg.validateMsgs = ["Timestamp must be greater than zero"] := by
      unfold Config.validateMsgs
      simp [h.1, h.2.1, h.2.2.1, h.2.2.2.1, h.2.2.2.2]
    rw [hval, hm]; rfl
  · intro h
    have hm : cfg.validateMsgs = ["Revision cannot be empty"] := by
      unfold Config.validateMsgs
      simp [h.1, h.2.1, h.2.2.2.1, h.2.2.2.2, Int.not_le.mpr h.2.2.1]
    rw [hval, hm]; rfl
  · intro h
    have hm : cfg.validateMsgs = ["Hardware ID cannot be empty"] := by
      unfold Config.validateMsgs
      simp [h.1, h.2.1, h.2.2.2.1, h.2.2.2.2, Int.not_le.mpr h.2.2.1]
    rw [hval, hm]; rfl

/-- C2 witness: a Config whose only invalid field is the empty database name
yields exactly the single violation "Database cannot be empty". -/
theorem validate_spec_witness :
    cfgDbEmpty.validate = some "Database cannot be empty" :=
  (validate_spec cfgDbEmpty).2.2.2.2.2.2.2.2.2.1
    ⟨rfl, by decide, by decide, by decide, by decide⟩

/-- C9 counterexample: a Config whose timestamp is one nanosecond after the
Unix epoch — strictly after the epoch — is nevertheless rejected by the
validator's timestamp check (its Unix() value is 0), refuting the claim that
the check accepts every time strictly after the epoch. -/
theorem validate_timestamp_counterexample :
    cfgSubSecond.Timestamp.afterEpoch ∧
    cfgSubSecond.validate = some "Timestamp must be greater than zero" := by
  constructor
  · exact Or.inr ⟨rfl, by decide⟩
  · decide

/-- C9 amended: the validator's timestamp check rejects a Config exactly when
its Timestamp's Unix() seconds value is at most 0 — covering Go's zero time,
all pre-1970 times, and also every time less than one full second after the
epoch — adding the message "Timestamp must be greater than zero" (and hence a
validation error), and it passes exactly when Unix() is at least 1. -/
theorem validate_timestamp_spec (cfg : Config) :
    (("Timestamp must be greater than zero" ∈ cfg.validateMsgs) ↔
      cfg.Timestamp.unixSec ≤ 0) ∧
    (cfg.Timestamp.unixSec ≤ 0 → ∃ e, cfg.validate = some e) ∧
    (1 ≤ cfg.Timestamp.unixSec →
      "Timestamp must be greater than zero" ∉ cfg.validateMsgs) := by
  have hmem := (mem_validateMsgs cfg).2.2.1
  refine ⟨hmem, ?_, ?_⟩
  · intro h
    have hne : cfg.validateMsgs ≠ [] := by
      intro hn
      obtain ⟨-, -, ht, -, -⟩ := (validateMsgs_eq_nil cfg).mp hn
      omega
    rw [validate_eq cfg, if_neg hne]
    exact ⟨_, rfl⟩
  · intro h hmem2
    have := hmem.mp hmem2
    omega

/-- C9 witness for the amended theorem: the sample valid Config, one hundred
seconds after the epoch, passes the timestamp check. -/
theorem validate_timestamp_spec_witness :
    "Timestamp must be greater than zero" ∉ cfgOK.validateMsgs :=
  (validate_timestamp_spec cfgOK).2.2 (by decide)

theorem int64ofUInt64_eq (v : Nat) (hv : v < 2 ^ 64) :
    (int64ofUInt64 v = (v : Int) ↔ v < 2 ^ 63) ∧
    (2 ^ 63 ≤ v → int64ofUInt64 v = (v : Int) - 2 ^ 64 ∧ int64ofUInt64 v < 0) := by
  unfold int64ofUInt64
  rw [Nat.mod_eq_of_lt hv]
  constructor
  · constructor
    · intro h
      by_contra hc
      rw [if_neg hc] at h
      omega
    · intro h
      rw [if_pos h]
  · intro h
    rw [if_neg (by omega)]
    exact ⟨rfl, by omega⟩

/-- C10: when the alloced-bytes or allocs-per-op bit of the measured mask is
set, makeFields emits the metric as the two's-complement reinterpretation
int64(value) of the parsed unsigned 64-bit value; the emitted integer equals
the source value exactly when the value is below 2^63, and otherwise wraps to
the negative value (source value - 2^64). -/
theorem makeFields_alloc_cast (b : parse.Benchmark) (rev : String)
    (hb : b.AllocedBytesPerOp < 2 ^ 64) (hs : b.AllocsPerOp < 2 ^ 64) :
    (b.Measured &&& parse.AllocedBytesPerOp ≠ 0 →
      ("alloced_bytes_per_op",
        FieldValue.i64 (int64ofUInt64 b.AllocedBytesPerOp)) ∈ makeFields b rev) ∧
    (b.Measured &&& parse.AllocsPerOp ≠ 0 →
      ("allocs_per_op",
        FieldValue.i64 (int64ofUInt64 b.AllocsPerOp)) ∈ makeFields b rev) ∧
    (int64ofUInt64 b.AllocedBytesPerOp = (b.AllocedBytesPerOp : Int) ↔
      b.AllocedBytesPerOp < 2 ^ 63) ∧
    (2 ^ 63 ≤ b.AllocedBytesPerOp →
      int64ofUInt64 b.AllocedBytesPerOp = (b.AllocedBytesPerOp : Int) - 2 ^ 64 ∧
      int64ofUInt64 b.AllocedBytesPerOp < 0) ∧
    (int64ofUInt64 b.AllocsPerOp = (b.AllocsPerOp : Int) ↔
      b.AllocsPerOp < 2 ^ 63) ∧
    (2 ^ 63 ≤ b.AllocsPerOp →
      int64ofUInt64 b.AllocsPerOp = (b.AllocsPerOp : Int) - 2 ^ 64 ∧
      int64ofUInt64 b.AllocsPerOp < 0) := by
  have h1 := int64ofUInt64_eq _ hb
  have h2 := int64ofUInt64_eq _ hs
  refine ⟨?_, ?_, h1.1, h1.2, h2.1, h2.2⟩
  · intro h
    unfold makeFields
    simp [h]
  · intro h
    unfold makeFields
    simp [h]

/-- C10 witness: the sample benchmark with both allocation bits set,
bytes-per-op equal to 2^63 and allocs-per-op equal to 3: the bytes metric is
emitted inside the field list as the wrapped negative value -(2^63), while the
small allocs metric is emitted unchanged. -/
theorem makeFields_alloc_cast_witness :
    ("alloced_bytes_per_op",
      FieldValue.i64 (int64ofUInt64 bAlloc.AllocedBytesPerOp)) ∈
      makeFields bAlloc "r" ∧
    int64ofUInt64 bAlloc.AllocedBytesPerOp = -(2 ^ 63 : Int) ∧
    int64ofUInt64 bAlloc.AllocedBytesPerOp < 0 ∧
    int64ofUInt64 bAlloc.AllocsPerOp = (bAlloc.AllocsPerOp : Int) := by
  have h := makeFields_alloc_cast bAlloc "r" (by decide) (by decide)
  exact ⟨h.1 (by decide), by decide, (h.2.2.2.1 (by decide)).2,
    h.2.2.2.2.1.mpr (by decide)⟩

/-- C1: the field map makeFields builds from one benchmark record and a
revision tag always contains the revision (the tag, as a string) and n (the
iteration count), contains each of ns_per_op, mb_per_s,
alloced_bytes_per_op, allocs_per_op exactly when the corresponding bit of
the record's measured mask is set; a record with mask 0 yields exactly the
two fields revision and n, and a record with all four bits set yields
exactly six fields. -/
theorem makeFields_spec (b : parse.Benchmark) (rev : String) :
    ("revision", FieldValue.str rev) ∈ makeFields b rev ∧
    ("n", FieldValue.int b.N) ∈ makeFields b rev ∧
    (("ns_per_op" ∈ (makeFields b rev).map Prod.fst) ↔
      b.Measured &&& parse.NsPerOp ≠ 0) ∧
    (("mb_per_s" ∈ (makeFields b rev).map Prod.fst) ↔
      b.Measured &&& parse.MBPerS ≠ 0) ∧
    (("alloced_bytes_per_op" ∈ (makeFields b rev).map Prod.fst) ↔
      b.Measured &&& parse.AllocedBytesPerOp ≠ 0) ∧
    (("allocs_per_op" ∈ (makeFields b rev).map Prod.fst) ↔
      b.Measured &&& parse.AllocsPerOp ≠ 0) ∧
    (b.Measured = 0 → (makeFields b rev).map Prod.fst = ["revision", "n"]) ∧
    ((b.Measured &&& parse.NsPerOp ≠ 0 ∧ b.Measured &&& parse.MBPerS ≠ 0 ∧
      b.Measured &&& parse.AllocedBytesPerOp ≠ 0 ∧
      b.Measured &&& parse.AllocsPerOp ≠ 0) →
      (makeFields b rev).length = 6) := by
  unfold makeFields
  refine ⟨by simp, by simp, ?_, ?_, ?_, ?_, ?_, ?_⟩
  · split_ifs <;> simp_all
  · split_ifs <;> simp_all
  · split_ifs <;> simp_all
  · split_ifs <;> simp_all
  · intro h
    simp [h, parse.NsPerOp, parse.MBPerS, parse.AllocedBytesPerOp,
      parse.AllocsPerOp]
  · intro h
    simp [h.1, h.2.1, h.2.2.1, h.2.2.2]

/-- C1 witness: the sample record with all four mask bits set yields six
fields, and the sample record with mask 0 yields exactly the keys revision
and n. -/
theorem makeFields_spec_witness :
    (makeFields bMask15 "r").length = 6 ∧
    (makeFields bMask0 "r").map Prod.fst = ["revision", "n"] :=
  ⟨(makeFields_spec bMask15 "r").2.2.2.2.2.2.2 (by decide),
   (makeFields_spec bMask0 "r").2.2.2.2.2.2.1 (by decide)⟩

theorem Run_validate_some (cfg : Config) (e : String)
    (pr : Except String (List (String × List parse.Benchmark)))
    (w : BatchPoints → Option String)
    (mi : List (String × List parse.Benchmark) →
      List (String × List parse.Benchmark))
    (hv : cfg.validate = some e) :
    Run pr w cfg mi = { parseCalled := false, writes := [], result := some e } := by
  unfold Run
  rw [hv]

theorem Run_parse_error (cfg : Config) (e : String)
    (w : BatchPoints → Option String)
    (mi : List (String × List parse.Benchmark) →
      List (String × List parse.Benchmark))
    (hv : cfg.validate = none) :
    Run (Except.error e) w cfg mi =
      { parseCalled := true, writes := [], result := some e } := by
  unfold Run
  rw [hv]

theorem Run_ok (cfg : Config) (bs : List (String × List parse.Benchmark))
    (w : BatchPoints → Option String)
    (mi : List (String × List parse.Benchmark) →
      List (String × List parse.Benchmark))
    (hv : cfg.validate = none) :
    Run (Except.ok bs) w cfg mi =
      { parseCalled := true, writes := [buildBatch cfg (mi bs)],
        result := w (buildBatch cfg (mi bs)) } := by
  unfold Run
  rw [hv]

/-- C5: when validation fails, Run returns the aggregated validation error
directly: the report reader is never consumed by the parser and the write
sink is never invoked. -/
theorem run_validation_failure (cfg : Config) (e : String)
    (pr : Except String (List (String × List parse.Benchmark)))
    (w : BatchPoints → Option String)
    (mi : List (String × List parse.Benchmark) →
      List (String × List parse.Benchmark))
    (hv : cfg.validate = some e) :
    Run pr w cfg mi =
      { parseCalled := false, writes := [], result := some e } :=
  Run_validate_some cfg e pr w mi hv

/-- C5 witness: the Config with an empty database name makes Run return the
validation error with the parser never called and no write submitted. -/
theorem run_validation_failure_witness :
    Run (Except.ok bsSrc) (fun _ => none) cfgDbEmpty id =
      { parseCalled := false, writes := [],
        result := some "Database cannot be empty" } :=
  run_validation_failure cfgDbEmpty "Database cannot be empty"
    (Except.ok bsSrc) (fun _ => none) id (by decide)

/-- C4: when validation passes but parsing fails, Run returns the parse error,
no batch is built and the write sink is never invoked; nothing of a partial
parse survives in the trace. -/
theorem run_parse_failure (cfg : Config) (e : String)
    (w : BatchPoints → Option String)
    (mi : List (String × List parse.Benchmark) →
      List (String × List parse.Benchmark))
    (hv : cfg.validate = none) :
    Run (Except.error e) w cfg mi =
      { parseCalled := true, writes := [], result := some e } :=
  Run_parse_error cfg e w mi hv

/-- C4 witness: a run on the valid sample Config whose report fails to parse
returns exactly the parse error and writes nothing. -/
theorem run_parse_failure_witness :
    Run (Except.error "unrecognized unit label") (fun _ => none) cfgOK id =
      { parseCalled := true, writes := [],
        result := some "unrecognized unit label" } :=
  run_parse_failure cfgOK "unrecognized unit label" (fun _ => none) id (by decide)

/-- C6: on a successfully parsed report the single submitted batch carries the
Config's timestamp, the fixed whole-second precision "s", the Config's
database name and the run-level tag pairs goversion and hwid; every point in
the batch has measurement name "benchmarks", per-point tags pkg, ncpu
(stringified) and name taken from its own package and record, and the fields
produced by makeFields. -/
theorem run_batch_metadata (cfg : Config)
    (bs : List (String × List parse.Benchmark))
    (w : BatchPoints → Option String)
    (mi : List (String × List parse.Benchmark) →
      List (String × List parse.Benchmark))
    (hv : cfg.validate = none) :
    (Run (Except.ok bs) w cfg mi).writes = [buildBatch cfg (mi bs)] ∧
    (buildBatch cfg (mi bs)).Database = cfg.Database ∧
    (buildBatch cfg (mi bs)).Time = cfg.Timestamp ∧
    (buildBatch cfg (mi bs)).Precision = "s" ∧
    (buildBatch cfg (mi bs)).Tags =
      [("goversion", cfg.GoVersion), ("hwid", cfg.HardwareID)] ∧
    ∀ p ∈ (buildBatch cfg (mi bs)).Points,
      p.Measurement = "benchmarks" ∧
      ∃ pkg recs b, (pkg, recs) ∈ mi bs ∧ b ∈ recs ∧
        p.Tags = [("pkg", pkg), ("ncpu", toString b.NumCPU), ("name", b.Name)] ∧
        p.Fields = makeFields b cfg.Revision := by
  refine ⟨by rw [Run_ok cfg bs w mi hv], rfl, rfl, rfl, rfl, ?_⟩
  intro p hp
  unfold buildBatch at hp
  simp only [List.mem_flatMap, List.mem_map] at hp
  obtain ⟨⟨pkg, recs⟩, hmem, b, hb, hpb⟩ := hp
  subst hpb
  exact ⟨rfl, pkg, recs, b, hmem, hb, rfl, rfl⟩

/-- C6 witness: on the two-package sample input the batch is submitted with
precision "s" and the goversion and hwid tags of the sample Config. -/
theorem run_batch_metadata_witness :
    (Run (Except.ok bsSrc) (fun _ => none) cfgOK id).writes =
      [buildBatch cfgOK bsSrc] ∧
    (buildBatch cfgOK bsSrc).Precision = "s" ∧
    (buildBatch cfgOK bsSrc).Tags = [("goversion", "go1.22"), ("hwid", "hw1")] := by
  have h := run_batch_metadata cfgOK bsSrc (fun _ => none) id (by decide)
  exact ⟨h.1, h.2.2.2.1, h.2.2.2.2.1.trans (by decide)⟩

/-- C7: Run emits exactly one point per parsed benchmark record: for every
iteration order of the package map that is a permutation of the parser's
source-order output, the point count of the submitted batch equals the total
number of records across all packages. -/
theorem run_point_count (cfg : Config)
    (bs : List (String × List parse.Benchmark))
    (w : BatchPoints → Option String)
    (mi : List (String × List parse.Benchmark) →
      List (String × List parse.Benchmark))
    (hv : cfg.validate = none) (hp : (mi bs).Perm bs) :
    (Run (Except.ok bs) w cfg mi).writes = [buildBatch cfg (mi bs)] ∧
    (buildBatch cfg (mi bs)).Points.length =
      (bs.map (fun pb => pb.2.length)).sum := by
  refine ⟨by rw [Run_ok cfg bs w mi hv], ?_⟩
  have hlen : (buildBatch cfg (mi bs)).Points.length =
      ((mi bs).map (fun pb => pb.2.length)).sum := by
    simp [buildBatch, List.length_flatMap, Function.comp_def]
  rw [hlen]
  exact (hp.map (fun pb => pb.2.length)).sum_eq

/-- C7 witness: two packages with one benchmark each yield exactly two
points, each tagged with its own pkg value, whatever of the two orders the
map iteration takes. -/
theorem run_point_count_witness :
    (buildBatch cfgOK bsRev).Points.length = 2 ∧
    (buildBatch cfgOK bsRev).Points.map (fun p => p.Tags.head?) =
      [some ("pkg", "b"), some ("pkg", "a")] := by
  refine ⟨?_, by decide⟩
  exact ((run_point_count cfgOK bsSrc (fun _ => none) (fun _ => bsRev)
    (by decide) (List.Perm.swap _ _ _)).2).trans (by decide)

/-- C8: after building the batch Run submits it to the write sink exactly
once and returns the sink's outcome unchanged; across all cases, a run
succeeds exactly when validation, parsing and the single write all
succeed. -/
theorem run_write_once (cfg : Config)
    (pr : Except String (List (String × List parse.Benchmark)))
    (w : BatchPoints → Option String)
    (mi : List (String × List parse.Benchmark) →
      List (String × List parse.Benchmark)) :
    (∀ bs, pr = Except.ok bs → cfg.validate = none →
      (Run pr w cfg mi).writes = [buildBatch cfg (mi bs)] ∧
      (Run pr w cfg mi).result = w (buildBatch cfg (mi bs))) ∧
    ((Run pr w cfg mi).result = none ↔
      (cfg.validate = none ∧
        ∃ bs, pr = Except.ok bs ∧ w (buildBatch cfg (mi bs)) = none)) := by
  cases hv : cfg.validate with
  | some e =>
    rw [Run_validate_some cfg e pr w mi hv]
    simp
  | none =>
    cases pr with
    | error e =>
      rw [Run_parse_error cfg e w mi hv]
      simp
    | ok bs =>
      rw [Run_ok cfg bs w mi hv]
      simp

/-- C8 witness: on the sample valid Config, parsed two-package input and a
sink that accepts the batch, Run writes the single batch and returns
success. -/
theorem run_write_once_witness :
    (Run (Except.ok bsSrc) (fun _ => none) cfgOK id).writes =
      [buildBatch cfgOK bsSrc] ∧
    (Run (Except.ok bsSrc) (fun _ => none) cfgOK id).result = none := by
  have h := run_write_once cfgOK (Except.ok bsSrc) (fun _ => none) id
  exact ⟨(h.1 bsSrc rfl (by decide)).1, h.2.mpr ⟨by decide, bsSrc, rfl, rfl⟩⟩

/-- C3 counterexample: on the same parsed input — two packages in source
order — two runs whose map iteration enumerates the two entries in the two
possible orders (each a permutation of the parser's source-order output, as
Go's unspecified map range order allows) submit different point sequences,
so the batch order is not the source order and the map's iteration order
does leak into the output ordering. -/
theorem run_order_counterexample :
    bsRev.Perm bsSrc ∧
    (Run (Except.ok bsSrc) (fun _ => none) cfgOK (fun _ => bsRev)).writes ≠
      (Run (Except.ok bsSrc) (fun _ => none) cfgOK id).writes := by
  refine ⟨List.Perm.swap _ _ _, ?_⟩
  intro h
  have h2 := congrArg (List.map (fun bp => bp.Points.map (fun p => p.Tags))) h
  exact absurd h2 (by decide)

/-- C3 amended: Run's batch lists, in the map's iteration order, one
contiguous block of points per package with the package's records in source
order, and for every iteration order that is a permutation of the parser's
source-order output the submitted point sequence is a permutation — the same
multiset of points — as the source-order sequence; the sequence itself,
however, follows the map iteration order, which Go leaves unspecified. -/
theorem run_points_perm (cfg : Config)
    (bs : List (String × List parse.Benchmark))
    (w : BatchPoints → Option String)
    (mi : List (String × List parse.Benchmark) →
      List (String × List parse.Benchmark))
    (hv : cfg.validate = none) (hp : (mi bs).Perm bs) :
    (Run (Except.ok bs) w cfg mi).writes = [buildBatch cfg (mi bs)] ∧
    (buildBatch cfg (mi bs)).Points =
      (mi bs).flatMap (fun pb => pb.2.map (pointOf cfg pb.1)) ∧
    ((buildBatch cfg (mi bs)).Points).Perm ((buildBatch cfg bs).Points) := by
  refine ⟨by rw [Run_ok cfg bs w mi hv], rfl, ?_⟩
  show ((mi bs).flatMap fun pb => pb.2.map (pointOf cfg pb.1)).Perm
    (bs.flatMap fun pb => pb.2.map (pointOf cfg pb.1))
  exact hp.flatMap_right _

/-- C3 witness for the amended theorem: on the two-package sample input the
reversed iteration order yields a batch whose points are a permutation of the
source-order points. -/
theorem run_points_perm_witness :
    ((buildBatch cfgOK bsRev).Points).Perm ((buildBatch cfgOK bsSrc).Points) :=
  (run_points_perm cfgOK bsSrc (fun _ => none) (fun _ => bsRev)
    (by decide) (List.Perm.swap _ _ _)).2.2

end grade
